import Mathlib

/-!
Shallow embedding of the service-controller reconciliation engine of
`cloud-provider-alibaba-cloud` (`cloud-controller-manager/controller/service/controller.go`)
and proofs about the claims concerning it.

Conventions of the embedding:
* Go `string` becomes `String`; map / label / annotation sets become
  association lists `List (String × String)`.
* `time.Duration` values become exact rationals measured in seconds
  (the reachable delay values of the controller's backoff are exactly
  representable, so no rounding is lost for the statements proved here).
* Side-effecting calls against the cloud backend and the Kubernetes API
  server are made explicit: the reconciler functions thread a `World`
  (cloud state, live object, local cache) and append every outbound call
  to a trace, so "how many external writes happened" is a function of the
  result.
* Fallible Go functions returning `error` become functions returning
  `World × Option String` (`none` = nil error).
-/

namespace AlibabaCC

/-! ## String containment (Go `strings.Contains`) -/

/-- The `listStartsWith s sub` is true when `sub` is a leading segment of `s`
(char-by-char comparison, as Go's prefix check does). -/
def listStartsWith : List Char → List Char → Bool
  | _, [] => true
  | [], _ :: _ => false
  | a :: as, b :: bs => a == b && listStartsWith as bs

/-- The `listContainsSub s sub`: `sub` occurs contiguously somewhere within `s`
(Go `strings.Contains` over rune lists). -/
def listContainsSub : List Char → List Char → Bool
  | [], sub => sub.isEmpty
  | a :: t, sub => listStartsWith (a :: t) sub || listContainsSub t sub

/-- Go `strings.Contains s sub`. -/
def strContains (s sub : String) : Bool :=
  listContainsSub s.toList sub.toList

/-! ## Constants from `controller.go` -/

/-- The `LabelNodeRoleMaster` from controller.go. -/
def LabelNodeRoleMaster : String := "node-role.kubernetes.io/master"

/-- The `TRY_AGAIN` sentinel from controller.go. -/
def TRY_AGAIN : String := "try again"

/-- Modelled from the spec: the opt-in annotation key
`utils.ServiceAnnotationLoadBalancerRemoveUnscheduledBackend` is defined in a
utils file outside the included sources; only its identity matters here. -/
def RemoveUnscheduledBackendKey : String :=
  "service.beta.kubernetes.io/alibaba-cloud-loadbalancer-remove-unscheduled-backend"

/-- Modelled from the spec: `utils.ECINodeLabel`, the label value marking a
virtual/elastic-container node; defined outside the included sources. -/
def ECINodeLabel : String := "virtual-kubelet"

/-- Modelled from the spec: `utils.LabelServiceHash`, the bookkeeping label key
carrying the content hash; defined outside the included sources. -/
def LabelServiceHash : String := "service.beta.kubernetes.io/hash"

/-- The message of `wait.ErrWaitTimeout` returned by
`wait.ExponentialBackoff` when all steps are exhausted. -/
def ErrWaitTimeout : String := "timed out waiting for the condition"

/-! ## Data model (the fields of the Kubernetes objects the controller reads) -/

/-- The `v1.LoadBalancerStatus`: the list of ingress entries (modelled as opaque
strings; the controller only ever compares statuses for semantic equality). -/
structure LoadBalancerStatus where
  ingress : List String
deriving DecidableEq, Repr

/-- The `v1.ServiceExternalTrafficPolicyType` (`Cluster` / `Local`). -/
inductive ExternalTrafficPolicy
  | cluster
  | local_
deriving DecidableEq, Repr

/-- The `v1.ServiceType`; the controller only distinguishes `LoadBalancer`. -/
inductive ServiceType
  | loadBalancer
  | clusterIP
  | nodePort
  | externalName
deriving DecidableEq, Repr

/-- The service-spec fields the controller reads. -/
structure ServiceSpec where
  type : ServiceType
  externalTrafficPolicy : ExternalTrafficPolicy
deriving DecidableEq, Repr

/-- A `v1.Service` restricted to the fields the controller reads/writes. -/
structure Service where
  ns : String
  name : String
  uid : String
  labels : List (String × String)
  annotations : List (String × String)
  spec : ServiceSpec
  status : LoadBalancerStatus
deriving DecidableEq, Repr

/-- The `v1.NodeCondition` restricted to type and status strings. -/
structure NodeCondition where
  condType : String
  status : String
deriving DecidableEq, Repr

/-- A `v1.Node` restricted to the fields `NodeConditionPredicate` reads. -/
structure Node where
  name : String
  labels : List (String × String)
  unschedulable : Bool
  conditions : List NodeCondition
deriving DecidableEq, Repr

/-- Go `svc.Annotations[k]` (missing key yields the empty string). -/
def Service.annotation (svc : Service) (k : String) : String :=
  (svc.annotations.lookup k).getD ""

/-- The `key(svc)`: `namespace/name`, from controller.go. -/
def key (svc : Service) : String := svc.ns ++ "/" ++ svc.name

/-- Modelled from the spec: `NeedLoadBalancer` (defined outside the included
sources) holds for services of type LoadBalancer. -/
def NeedLoadBalancer (svc : Service) : Bool :=
  decide (svc.spec.type = ServiceType.loadBalancer)

/-! ## `NodeConditionPredicate` (controller.go lines 746-793) -/

/-- The per-node eligibility predicate returned by
`NodeConditionPredicate(svc)`, translated branch by branch from the source. -/
def NodeConditionPredicate (svc : Service) (node : Node) : Bool :=
  -- Filter unschedulable node (only when the service opts in via annotation).
  if node.unschedulable && (svc.annotation RemoveUnscheduledBackendKey == "on") then
    false
  -- Recognize nodes labeled as master; exclude them when the service's
  -- external traffic policy is Cluster.
  else if (node.labels.lookup LabelNodeRoleMaster).isSome
      && decide (svc.spec.externalTrafficPolicy = ExternalTrafficPolicy.cluster) then
    false
  -- eci node: bypass the condition check entirely.
  else if node.labels.lookup "type" == some ECINodeLabel then
    true
  -- If we have no info, do not accept.
  else if node.conditions.isEmpty then
    false
  -- Require the NodeReady condition to be ConditionTrue.
  else
    node.conditions.all fun cond =>
      !(cond.condType == "Ready" && cond.status != "True")

/-! ## `RequeueBackoff` (controller.go lines 382-431)

Durations and instants are rationals measured in seconds. -/

/-- The `RequeueBackoff` state: time of the last observed throttle, current
delay, and the multiplicative growth factor. -/
structure RequeueBackoff where
  last : ℚ
  next : ℚ
  factor : ℚ
deriving DecidableEq, Repr

/-- The `NewBackoff(next, factor)` called at instant `now`
(`last` is initialized to `time.Now()`). -/
def NewBackoff (now nxt factor : ℚ) : RequeueBackoff :=
  { last := now, next := nxt, factor := factor }

/-- The `(*RequeueBackoff).Next()` called at instant `now`: records the throttle
observation, multiplies the delay by the factor, resets the base to 30 s when
the multiplied delay exceeds 120 s, and returns the stored delay. -/
def RequeueBackoff.Next (b : RequeueBackoff) (now : ℚ) : RequeueBackoff × ℚ :=
  let n0 := b.next * b.factor
  let n := if 120 < n0 then 30 else n0
  ({ b with last := now, next := n }, n)

/-- One firing of the ticker body inside `(*RequeueBackoff).reset()` at
instant `now`: if the last throttle observation is more than one minute old,
the stored delay is set to the constant 5 s. -/
def RequeueBackoff.tick (b : RequeueBackoff) (now : ℚ) : RequeueBackoff :=
  if b.last + 60 < now then { b with next := 5 } else b

/-- The state after `n` consecutive `Next()` calls (no quiet period). -/
def iterNext (b : RequeueBackoff) (now : ℚ) : Nat → RequeueBackoff
  | 0 => b
  | n + 1 => ((iterNext b now n).Next now).1

/-! ## The worlds reconciliation acts on -/

/-- Modelled from the spec: `utils.GetServiceHash` (defined outside the
included sources) computes a content hash of the service's spec used purely
for change detection; only its determinism in the spec fields matters, so it
is embedded as an injective encoding of the spec fields. -/
def GetServiceHash (svc : Service) : String :=
  (match svc.spec.type with
    | ServiceType.loadBalancer => "lb"
    | ServiceType.clusterIP => "cip"
    | ServiceType.nodePort => "np"
    | ServiceType.externalName => "en") ++ "/" ++
  (match svc.spec.externalTrafficPolicy with
    | ExternalTrafficPolicy.cluster => "cluster"
    | ExternalTrafficPolicy.local_ => "local")

/-- Modelled from the spec: the deterministic ingress status the cloud
backend reports for the load balancer it ensures for a service. -/
def ensuredStatus (svc : Service) : LoadBalancerStatus :=
  { ingress := [key svc ++ "-slb"] }

/-- Modelled from the spec: the cloud load-balancer backend
(`con.cloud`, implemented outside the included sources). It holds at most one
load balancer per service controller world, remembering the reported status
and the service content hash recorded at the last actual write; the
ensure-operation is the idempotent create-or-update of spec §4.4/§8 that
performs no write when the stamped content hash is unchanged. -/
structure Cloud where
  lb : Option (LoadBalancerStatus × String)
deriving DecidableEq, Repr

/-- The `GetLoadBalancer`: does the backend currently hold a load balancer? -/
def Cloud.exists_ (c : Cloud) : Bool := c.lb.isSome

/-- Modelled from the spec: `EnsureLoadBalancer` returns the new cloud state,
the reported status, and whether an actual cloud write happened (it is
skipped exactly when the recorded content hash matches). -/
def Cloud.ensure (c : Cloud) (svc : Service) : Cloud × LoadBalancerStatus × Bool :=
  match c.lb with
  | some (st, h) =>
    if h = GetServiceHash svc then (c, st, false)
    else ({ lb := some (ensuredStatus svc, GetServiceHash svc) }, ensuredStatus svc, true)
  | none => ({ lb := some (ensuredStatus svc, GetServiceHash svc) }, ensuredStatus svc, true)

/-- Modelled from the spec: the ServiceCache (`Context`, defined outside the
included sources) is a process-local map keyed by `namespace/name`. -/
abbrev Context : Type := List (String × Service)

/-- The `Context.Get`. -/
def Context.get (c : Context) (k : String) : Option Service :=
  List.lookup k c

/-- The `Context.Remove`. -/
def Context.remove (c : Context) (k : String) : Context :=
  List.filter (fun p => p.1 != k) c

/-- The `Context.Set`. -/
def Context.set (c : Context) (k : String) (v : Service) : Context :=
  (k, v) :: Context.remove c k

/-- One outbound call made by the reconciler. `ensureLB` records whether the
backend actually wrote; `statusWrite` is one `UpdateStatus` attempt;
`patchSvc` is the `PatchService` call of the hash-label bookkeeping. -/
inductive ExtCall
  | getLB
  | ensureLB (svc : Service) (nodes : List Node) (wrote : Bool)
  | deleteLB (svc : Service)
  | getSvc
  | statusWrite (st : LoadBalancerStatus)
  | patchSvc
deriving DecidableEq, Repr

/-- Is this call an actual write against the cloud backend? -/
def ExtCall.isCloudWrite : ExtCall → Bool
  | ExtCall.deleteLB _ => true
  | ExtCall.ensureLB _ _ wrote => wrote
  | _ => false

/-- Is this call a Kubernetes status write attempt? -/
def ExtCall.isStatusWrite : ExtCall → Bool
  | ExtCall.statusWrite _ => true
  | _ => false

/-- Number of actual cloud-backend writes in a trace. -/
def countCloudWrites (t : List ExtCall) : Nat :=
  (t.filter ExtCall.isCloudWrite).length

/-- Number of Kubernetes status write attempts in a trace. -/
def countStatusWrites (t : List ExtCall) : Nat :=
  (t.filter ExtCall.isStatusWrite).length

/-- Outcome of one `UpdateStatus` attempt against the API server, as
distinguished by the source (`errors.IsNotFound` / `errors.IsConflict` /
other). -/
inductive WriteOutcome
  | ok
  | notFound
  | conflict (msg : String)
  | otherErr (msg : String)
deriving DecidableEq, Repr

/-- The behavior of the external collaborators during a reconciliation:
the result of `EnsureLoadBalancerDeleted` (`none` = success), the outcome of
the n-th status write attempt of the world, and the current node list served
by the node lister. -/
structure Env where
  deleteErr : Option String
  statusWrite : Nat → WriteOutcome
  nodes : List Node

/-- The mutable world the reconciler acts on: the cloud backend state, the
live service object in the API server (`none` = deleted), the local
ServiceCache, and the trace of outbound calls made so far. -/
structure World where
  cloud : Cloud
  kube : Option Service
  cache : Context
  trace : List ExtCall
deriving Repr

/-! ## The reconciler (`controller.go` lines 438-717) -/

/-- The `(*Controller).delete` (lines 688-717): unconditionally invoke the cloud
backend's delete; on failure return the `TRY_AGAIN` sentinel; on success
remove the cache entry. -/
def deleteOp (env : Env) (svc : Service) (w : World) : World × Option String :=
  let w1 : World := { w with trace := w.trace ++ [ExtCall.deleteLB svc] }
  match env.deleteErr with
  | some _ => (w1, some TRY_AGAIN)
  | none =>
    ({ w1 with cloud := { lb := none }, cache := w1.cache.remove (key svc) }, none)

/-- The `retry` (lines 488-516) together with the semantics of
`wait.ExponentialBackoff`: the wrapped function is attempted up to `steps`
times; an error containing `TRY_AGAIN` keeps the loop going (exhaustion
yields `ErrWaitTimeout`); any other result — success or a different
error — ends the loop with a nil error (the condition returns `true, nil`). -/
def retryGo (steps : Nat) (f : World → World × Option String) (w : World) :
    World × Option String :=
  match steps with
  | 0 => (w, some ErrWaitTimeout)
  | n + 1 =>
    match f w with
    | (w1, none) => (w1, none)
    | (w1, some msg) =>
      if strContains msg TRY_AGAIN then
        if n = 0 then (w1, some ErrWaitTimeout) else retryGo n f w1
      else (w1, none)

/-- Replace / insert a label in an association list (the effect of the
strategic-merge patch issued by `PatchService`). -/
def setLabel (ls : List (String × String)) (k v : String) : List (String × String) :=
  (k, v) :: ls.filter (fun p => p.1 != k)

/-- Error-propagating sequencing: Go's `if err := step(); err != nil
{ return err }` followed by the continuation. -/
def bindErr : World × Option String → (World → World × Option String) → World × Option String
  | (w, some e), _ => (w, some e)
  | (w, none), f => f w

/-- The effect of the `PatchService` call of `addServiceHash` on the live
object. -/
def addHashKube (svc : Service) (w1 : World) : Option Service → World × Option String
  | none => (w1, some "update service hash: not found")
  | some cur =>
    ({ w1 with
        kube := some
          { cur with labels := setLabel cur.labels LabelServiceHash (GetServiceHash svc) } },
      none)

/-- The `(*Controller).addServiceHash` (lines 606-620): stamp the content-hash
label on the live object through `PatchService`. -/
def addServiceHash (svc : Service) (w : World) : World × Option String :=
  let w1 : World := { w with trace := w.trace ++ [ExtCall.patchSvc] }
  addHashKube svc w1 w1.kube

/-- The effect of the `PatchService` call of `removeServiceHash` on the live
object. -/
def removeHashKube (w1 : World) : Option Service → World × Option String
  | none => (w1, some "remove service hash, error: not found")
  | some cur =>
    ({ w1 with
        kube := some { cur with labels := cur.labels.filter (fun p => p.1 != LabelServiceHash) } },
      none)

/-- The `(*Controller).removeServiceHash` (lines 622-631): strip the content-hash
label, patching only when the reconciler's copy of the object carries it. -/
def removeServiceHash (svc : Service) (w : World) : World × Option String :=
  if (svc.labels.lookup LabelServiceHash).isSome then
    let w1 : World := { w with trace := w.trace ++ [ExtCall.patchSvc] }
    removeHashKube w1 w1.kube
  else (w, none)

/-- The error text `updateStatus` produces on an optimistic-concurrency
conflict (lines 674-675): the fixed sentence with the API server's own error
text appended through the `: %v` verb. -/
def conflictMsg (svc : Service) (m : String) : String :=
  ("not persisting update to service " ++ key svc ++
    " that has been changed since we received it: ") ++ m

/-- The `UpdateStatus` attempt of the closure below, dispatched on the
outcome the API server answers: the write is traced, `ok` persists the new
status, `NotFound` is accepted silently, `Conflict` wraps the server's error
text into the conflict message, anything else yields a `TRY_AGAIN` error. -/
def statusClWrite (newm : LoadBalancerStatus) (svc cur : Service) (w1 : World) :
    WriteOutcome → World × Option String
  | WriteOutcome.ok =>
    ({ w1 with
        trace := w1.trace ++ [ExtCall.statusWrite newm]
        kube := some { cur with status := newm } }, none)
  | WriteOutcome.notFound =>
    ({ w1 with trace := w1.trace ++ [ExtCall.statusWrite newm] }, none)
  | WriteOutcome.conflict m =>
    ({ w1 with trace := w1.trace ++ [ExtCall.statusWrite newm] },
      some (conflictMsg svc m))
  | WriteOutcome.otherErr m =>
    ({ w1 with trace := w1.trace ++ [ExtCall.statusWrite newm] },
      some ("retry with " ++ m ++ ", " ++ TRY_AGAIN))

/-- The re-fetch of the latest object inside the closure: a deleted object
makes the `Get` fail. -/
def statusClKube (env : Env) (newm : LoadBalancerStatus) (svc : Service) (w1 : World) :
    Option Service → World × Option String
  | none => (w1, some ("error to get svc " ++ key svc))
  | some cur => statusClWrite newm svc cur w1 (env.statusWrite (countStatusWrites w1.trace))

/-- The closure passed to `retry` inside `updateStatus` (lines 648-680): get
the latest object, overwrite its load-balancer status, and issue
`UpdateStatus`. -/
def statusCl (env : Env) (newm : LoadBalancerStatus) (svc : Service) (w : World) :
    World × Option String :=
  let w1 : World := { w with trace := w.trace ++ [ExtCall.getSvc] }
  statusClKube env newm svc w1 w1.kube

/-- The `(*Controller).updateStatus` (lines 633-686): reject a nil desired
status; skip the write when the status is semantically unchanged
(`v1helper.LoadBalancerStatusEqual`); otherwise write through `retry` with a
3-step backoff. -/
def updateStatus (env : Env) (svc : Service) (pre : LoadBalancerStatus) :
    Option LoadBalancerStatus → World → World × Option String
  | none, w => (w, some "status not updated for nil status reason")
  | some st, w =>
    if pre = st then (w, none)
    else retryGo 3 (statusCl env st svc) w

/-- The `AvailableNodes` (lines 719-742): the node list filtered through
`NodeConditionPredicate`. -/
def AvailableNodes (env : Env) (svc : Service) : List Node :=
  env.nodes.filter (NodeConditionPredicate svc)

/-- The UID-mismatch test of `update` (line 522):
`cached != nil && cached.UID != svc.UID`. -/
def uidChanged : Option Service → Service → Bool
  | none, _ => false
  | some c, svc => c.uid != svc.uid

/-- On success of the status write, record the reconciled object in the
ServiceCache (the unconditional `con.local.Set` at line 602); a failure is
wrapped with the `update service status:` prefix (line 596). -/
def recordCache (svc : Service) : World × Option String → World × Option String
  | (w1, some e) => (w1, some ("update service status: " ++ e))
  | (w1, none) => ({ w1 with cache := Context.set w1.cache (key svc) svc }, none)

/-- The tail of `update` (lines 595-603): write the status, then on success
always record the object in the ServiceCache. -/
def finishStatus (env : Env) (svc : Service) (pre newm : LoadBalancerStatus)
    (w : World) : World × Option String :=
  recordCache svc (updateStatus env svc pre (some newm) w)

/-- The `(*Controller).update` (lines 518-604), with the delete / ensure calls,
hash-label bookkeeping and status write made explicit. The cloud backend's
`GetLoadBalancer` / `EnsureLoadBalancer` are the spec-modelled operations of
`Cloud` and are modelled as not failing. -/
def update (env : Env) (cached : Option Service) (svc : Service) (w : World) :
    World × Option String :=
  let pre := svc.status
  if uidChanged cached svc then
    -- UIDChanged: try delete old service first.
    retryGo 8 (deleteOp env svc) w
  else if NeedLoadBalancer svc = false then
    -- The service no longer needs a load balancer.
    let w1 : World := { w with trace := w.trace ++ [ExtCall.getLB] }
    bindErr
      (if w1.cloud.exists_ then retryGo 8 (deleteOp env svc) w1
       else ({ w1 with cache := Context.remove w1.cache (key svc) }, none))
      (fun w2 =>
        bindErr (removeServiceHash svc w2)
          (fun w3 => finishStatus env svc pre { ingress := [] } w3))
  else
    -- Ensure path.
    let nodes := AvailableNodes env svc
    let er := Cloud.ensure w.cloud svc
    let w1 : World :=
      { w with cloud := er.1, trace := w.trace ++ [ExtCall.ensureLB svc nodes er.2.2] }
    bindErr (addServiceHash svc w1) (fun w2 => finishStatus env svc pre er.2.1 w2)

/-- The result of the service lister lookup inside `ServiceSyncTask`. -/
inductive ListerResult
  | notFound
  | failure (msg : String)
  | found (svc : Service)

/-- Go `strings.Split(key, "/")` over rune lists. -/
def splitOnSlash : List Char → List (List Char)
  | [] => [[]]
  | c :: t =>
    let r := splitOnSlash t
    if c = '/' then [] :: r
    else
      match r with
      | [] => [[c]]
      | h :: rest => (c :: h) :: rest

/-- The `cache.SplitMetaNamespaceKey`: at most one slash. -/
def splitMetaNamespaceKey (k : String) : Option (String × String) :=
  match splitOnSlash k.toList with
  | [n] => some ("", String.mk n)
  | [a, b] => some (String.mk a, String.mk b)
  | _ => none

/-- The not-found branch of `ServiceSyncTask` (lines 464-473): with no
cached prior version the deletion event is a logged no-op; otherwise the
cached object is deleted through `retry`. -/
def syncDelete (env : Env) : Option Service → World → World × Option String
  | none, w => (w, none)
  | some c, w => retryGo 8 (deleteOp env c) w

/-- The dispatch of `ServiceSyncTask` on the lister outcome (lines 463-483). -/
def syncDispatch (env : Env) (k : String) (w : World) :
    ListerResult → World × Option String
  | ListerResult.notFound => syncDelete env (Context.get w.cache k) w
  | ListerResult.failure m =>
    (w, some ("failed to load service from local context: " ++ m))
  | ListerResult.found svc => update env (Context.get w.cache k) svc w

/-- The `(*Controller).ServiceSyncTask` (lines 438-484): resolve the key, read
the cached entry, and dispatch on the lister outcome. -/
def ServiceSyncTask (env : Env) (lister : ListerResult) (k : String) (w : World) :
    World × Option String :=
  match splitMetaNamespaceKey k with
  | none => (w, some ("unexpected key format " ++ k ++ " for syncing service"))
  | some _ => syncDispatch env k w lister

/-- One reconciliation of the live object through `update`, feeding it the
cached entry under its own key (the way `ServiceSyncTask` does on the
found path). -/
def runUpdate (env : Env) (w : World) : World × Option String :=
  match w.kube with
  | none => (w, none)
  | some svc => update env (w.cache.get (key svc)) svc w

/-- The error handling of `WorkerFunc` (lines 345-380): a failed sync whose
error mentions `Throttling` advances the backoff and requeues after its
delay; any other failure requeues after the fixed 5 seconds without touching
the backoff; success requeues nothing. Returns the new backoff state and the
requeue delay, if any. -/
def workerHandleErr (back : RequeueBackoff) (now : ℚ) (e : Option String) :
    RequeueBackoff × Option ℚ :=
  match e with
  | none => (back, none)
  | some msg =>
    if strContains msg "Throttling" then
      let r := back.Next now
      (r.1, some r.2)
    else (back, some 5)

/-! ## Fixtures -/

/-- A schedulable, ready node carrying the master role label. -/
def nodeMaster : Node :=
  { name := "master-1", labels := [(LabelNodeRoleMaster, "")], unschedulable := false,
    conditions := [{ condType := "Ready", status := "True" }] }

/-- A LoadBalancer service whose external traffic policy is Cluster. -/
def svcPolicyCluster : Service :=
  { ns := "default", name := "web", uid := "uid-1", labels := [], annotations := [],
    spec := { type := ServiceType.loadBalancer,
              externalTrafficPolicy := ExternalTrafficPolicy.cluster },
    status := { ingress := [] } }

/-- A LoadBalancer service whose external traffic policy is Local. -/
def svcPolicyLocal : Service :=
  { ns := "default", name := "web", uid := "uid-1", labels := [], annotations := [],
    spec := { type := ServiceType.loadBalancer,
              externalTrafficPolicy := ExternalTrafficPolicy.local_ },
    status := { ingress := [] } }

/-- The same service re-created under a fresh UID. -/
def svcRecreated : Service :=
  { svcPolicyCluster with uid := "uid-2" }

/-- A service that no longer requires a load balancer (type ClusterIP). -/
def svcNoLB : Service :=
  { svcPolicyCluster with
    spec := { type := ServiceType.clusterIP,
              externalTrafficPolicy := ExternalTrafficPolicy.cluster } }

/-- An environment where every external collaborator succeeds. -/
def envOk : Env :=
  { deleteErr := none, statusWrite := fun _ => WriteOutcome.ok, nodes := [] }

/-- The standard optimistic-lock conflict error text the Kubernetes API
server (an external collaborator, outside the included sources) answers with
for the services registry: `errors.NewConflict` around
`registry.OptimisticLockErrorMsg`. Its tail is the sentence
"please apply your changes to the latest version and try again". -/
def apiConflictText (name : String) : String :=
  "Operation cannot be fulfilled on services \"" ++ name ++
    "\": the object has been modified; please apply your changes to the latest version and try again"

/-- An environment whose status writes always hit an optimistic-concurrency
conflict carrying the API server's standard conflict message. -/
def envConflict : Env :=
  { deleteErr := none
    statusWrite := fun _ => WriteOutcome.conflict (apiConflictText "web")
    nodes := [] }

/-- A fresh world holding only the given live service object. -/
def mkWorld (svc : Service) : World :=
  { cloud := { lb := none }, kube := some svc, cache := [], trace := [] }

/-- A world in which the cache still holds the old object while the live
object is its re-creation under a new UID, and a load balancer exists. -/
def wRecreated : World :=
  { cloud := { lb := some ({ ingress := ["203.0.113.9"] }, "stale-hash") },
    kube := some svcRecreated,
    cache := [(key svcPolicyCluster, svcPolicyCluster)],
    trace := [] }

/-- All status-write attempts of the environment succeed. -/
def allOk (env : Env) : Prop :=
  ∀ n, env.statusWrite n = WriteOutcome.ok

/-- The convergence invariant a fully successful reconciliation establishes
for the live object `svc`: the cache entry (if any) carries `svc`'s UID, and
the cloud backend state matches what the service requires — for a
LoadBalancer service, a load balancer recorded under `svc`'s content hash
whose status is already `svc`'s status; otherwise no load balancer, no
bookkeeping hash label, and an empty status. -/
def Converged (w : World) (svc : Service) : Prop :=
  w.kube = some svc ∧
  (∀ c, Context.get w.cache (key svc) = some c → c.uid = svc.uid) ∧
  (if NeedLoadBalancer svc = true then
      ∃ st, w.cloud.lb = some (st, GetServiceHash svc) ∧ svc.status = st
    else
      w.cloud.lb = none ∧ svc.labels.lookup LabelServiceHash = none ∧
        svc.status = { ingress := [] })

/-! ## C1 — master-node eligibility versus external traffic policy -/

/-- C1 counterexample. The claim states a master-labeled node is ineligible
under policy Local and eligible under policy Cluster; at this ready master
node the predicate decides exactly the opposite: ineligible under Cluster,
eligible under Local. -/
theorem c1_counterexample :
    NodeConditionPredicate svcPolicyCluster nodeMaster = false ∧
    NodeConditionPredicate svcPolicyLocal nodeMaster = true := by
  decide

/-- C1 (amended): for every service and master-labeled node not excluded by
the unschedulable rule, the predicate deems the node ineligible when the
external traffic policy is Cluster; when the policy is Local the master label
does not exclude the node, which is eligible provided its reported conditions
pass the readiness check. -/
theorem c1_amended_master_eligibility (svc : Service) (node : Node)
    (hmaster : (node.labels.lookup LabelNodeRoleMaster).isSome = true)
    (hsched : (node.unschedulable &&
      (svc.annotation RemoveUnscheduledBackendKey == "on")) = false) :
    (svc.spec.externalTrafficPolicy = ExternalTrafficPolicy.cluster →
      NodeConditionPredicate svc node = false) ∧
    (svc.spec.externalTrafficPolicy = ExternalTrafficPolicy.local_ →
      node.conditions ≠ [] →
      (∀ c ∈ node.conditions, c.condType = "Ready" → c.status = "True") →
      NodeConditionPredicate svc node = true) := by
  unfold NodeConditionPredicate
  constructor
  · intro hcl
    simp [hsched, hmaster, hcl]
  · intro hloc hne hready
    simp only [hsched, Bool.false_eq_true, if_false, hmaster, hloc, Bool.true_and]
    simp only [decide_eq_true_eq]
    rw [if_neg (by simp)]
    by_cases heci : node.labels.lookup "type" == some ECINodeLabel
    · simp [heci]
    · simp only [heci, Bool.false_eq_true, if_false]
      rw [if_neg (by simpa using hne)]
      rw [List.all_eq_true]
      intro c hc
      by_cases hr : c.condType = "Ready"
      · simp [hr, hready c hc hr]
      · simp [hr]

/-- C1 amended witness: the ready master node under a Cluster service and
under a Local service. -/
theorem c1_amended_witness :
    NodeConditionPredicate svcPolicyCluster nodeMaster = false ∧
    NodeConditionPredicate svcPolicyLocal nodeMaster = true := by
  refine ⟨(c1_amended_master_eligibility svcPolicyCluster nodeMaster
    (by decide) (by decide)).1 (by decide), ?_⟩
  exact (c1_amended_master_eligibility svcPolicyLocal nodeMaster
    (by decide) (by decide)).2 (by decide) (by decide) (by decide)

/-! ## C5 — monotonicity of consecutive `Next()` calls -/

/-- C5 counterexample. With the worker's backoff (floor 5 s, factor 1.5) the
7th call returns 10935/128 s ≈ 85.4 s and the 8th call returns 30 s: the
sequence of returned delays is not non-decreasing. -/
theorem c5_counterexample :
    (iterNext (NewBackoff 0 5 (3/2)) 0 7).next = 10935 / 128 ∧
    (iterNext (NewBackoff 0 5 (3/2)) 0 8).next = 30 ∧
    (iterNext (NewBackoff 0 5 (3/2)) 0 8).next
      < (iterNext (NewBackoff 0 5 (3/2)) 0 7).next := by
  refine ⟨by norm_num [iterNext, RequeueBackoff.Next, NewBackoff],
    by norm_num [iterNext, RequeueBackoff.Next, NewBackoff],
    by norm_num [iterNext, RequeueBackoff.Next, NewBackoff]⟩

/-- C5 (amended): every delay `Next()` returns is at most the 120 s ceiling,
and each step is non-decreasing as long as the multiplied delay stays within
the ceiling; when the multiplied delay exceeds 120 s the returned delay drops
to the 30 s plateau instead. -/
theorem c5_amended_bounded_growth (b : RequeueBackoff) (now : ℚ)
    (hf : 1 ≤ b.factor) (hn : 0 ≤ b.next) :
    (b.Next now).2 ≤ 120 ∧
    (b.next * b.factor ≤ 120 → b.next ≤ (b.Next now).2) ∧
    (120 < b.next * b.factor → (b.Next now).2 = 30) := by
  have h0 : (b.Next now).2 = if 120 < b.next * b.factor then 30 else b.next * b.factor := rfl
  by_cases h : 120 < b.next * b.factor
  · refine ⟨by rw [h0, if_pos h]; norm_num, fun hle => absurd h (not_lt.mpr hle), ?_⟩
    intro _
    rw [h0, if_pos h]
  · push_neg at h
    refine ⟨by rw [h0, if_neg (not_lt.mpr h)]; exact h, ?_, ?_⟩
    · intro _
      rw [h0, if_neg (not_lt.mpr h)]
      exact le_mul_of_one_le_right hn hf
    · intro hgt
      exact absurd hgt (not_lt.mpr h)

/-- C5 amended witness, at the worker's backoff after its first call. -/
theorem c5_amended_witness :
    ((NewBackoff 0 5 (3/2)).Next 1).2 ≤ 120 ∧
    ((NewBackoff 0 5 (3/2)).next * (NewBackoff 0 5 (3/2)).factor ≤ 120 →
      (NewBackoff 0 5 (3/2)).next ≤ ((NewBackoff 0 5 (3/2)).Next 1).2) ∧
    (120 < (NewBackoff 0 5 (3/2)).next * (NewBackoff 0 5 (3/2)).factor →
      ((NewBackoff 0 5 (3/2)).Next 1).2 = 30) :=
  c5_amended_bounded_growth (NewBackoff 0 5 (3/2)) 1 (by norm_num [NewBackoff])
    (by norm_num [NewBackoff])

/-! ## C6 — decay after a quiet period -/

/-- C6 counterexample. For a backoff initialized with floor 10 s and factor
1.5, after a quiet period of 61 s the ticker body sets the delay to the
constant 5 s — not the initialization floor 10 s — and the following call to
`Next()` returns 7.5 s, not the floor either. -/
theorem c6_counterexample :
    (RequeueBackoff.tick (NewBackoff 0 10 (3/2)) 61).next ≠ 10 ∧
    ((RequeueBackoff.tick (NewBackoff 0 10 (3/2)) 61).Next 62).2 ≠ 10 := by
  constructor
  · norm_num [RequeueBackoff.tick, NewBackoff]
  · norm_num [RequeueBackoff.tick, RequeueBackoff.Next, NewBackoff]

/-- C6 (amended): once more than one minute has passed since the last
throttle observation, the ticker body resets the stored delay to the constant
5 s (which coincides with the controller's floor but not with an arbitrary
initialization floor), and the next call to `Next()` returns that constant
multiplied by the growth factor (clamped to the 30 s plateau past 120 s),
not the floor itself. -/
theorem c6_amended_quiet_reset (b : RequeueBackoff) (now now2 : ℚ)
    (hq : b.last + 60 < now) :
    (b.tick now).next = 5 ∧
    ((b.tick now).Next now2).2 = if 120 < 5 * b.factor then 30 else 5 * b.factor := by
  have ht : b.tick now = { b with next := 5 } := by
    unfold RequeueBackoff.tick
    rw [if_pos hq]
  refine ⟨by rw [ht], ?_⟩
  rw [ht]
  rfl

/-- C6 amended witness at the worker's backoff parameters. -/
theorem c6_amended_witness :
    ((NewBackoff 0 5 (3/2)).tick 61).next = 5 ∧
    (((NewBackoff 0 5 (3/2)).tick 61).Next 62).2 =
      if 120 < 5 * (NewBackoff 0 5 (3/2)).factor then 30
      else 5 * (NewBackoff 0 5 (3/2)).factor :=
  c6_amended_quiet_reset (NewBackoff 0 5 (3/2)) 61 62 (by norm_num [NewBackoff])

/-! ## C9 — non-throttling failures leave the backoff untouched -/

/-- C9: a sync failure whose error text does not contain `Throttling` makes
the worker requeue after the fixed 5 s delay and leaves the entire
`RequeueBackoff` state (last observation instant and current delay)
unchanged; only throttling errors go through `Next()`. -/
theorem c9_nonthrottle_fixed_requeue (back : RequeueBackoff) (now : ℚ) (msg : String)
    (h : strContains msg "Throttling" = false) :
    workerHandleErr back now (some msg) = (back, some 5) := by
  unfold workerHandleErr
  simp [h]

/-- C9 witness: a generic ensure failure. -/
theorem c9_witness :
    workerHandleErr (NewBackoff 0 5 (3/2)) 9 (some "ensure loadbalancer error: bad spec")
      = (NewBackoff 0 5 (3/2), some 5) :=
  c9_nonthrottle_fixed_requeue (NewBackoff 0 5 (3/2)) 9
    "ensure loadbalancer error: bad spec" (by decide)

/-! ## C10 — ceiling and plateau of `Next()` -/

/-- C10: from any state with positive delay, `Next()` returns at most 120 s,
and whenever the multiplied delay exceeds 120 s it returns exactly the 30 s
plateau. -/
theorem c10_ceiling_plateau (b : RequeueBackoff) (now : ℚ) (_hpos : 0 < b.next) :
    (b.Next now).2 ≤ 120 ∧
    (120 < b.next * b.factor → (b.Next now).2 = 30) := by
  have h0 : (b.Next now).2 = if 120 < b.next * b.factor then 30 else b.next * b.factor := rfl
  by_cases h : 120 < b.next * b.factor
  · exact ⟨by rw [h0, if_pos h]; norm_num, fun _ => by rw [h0, if_pos h]⟩
  · push_neg at h
    exact ⟨by rw [h0, if_neg (not_lt.mpr h)]; exact h,
      fun hgt => absurd hgt (not_lt.mpr h)⟩

/-- C10 witness: a state in sustained throttling (delay 100 s, factor 1.5)
whose multiplied delay 150 s exceeds the ceiling. -/
theorem c10_witness :
    ((NewBackoff 0 100 (3/2)).Next 3).2 ≤ 120 ∧
    (120 < (NewBackoff 0 100 (3/2)).next * (NewBackoff 0 100 (3/2)).factor →
      ((NewBackoff 0 100 (3/2)).Next 3).2 = 30) :=
  c10_ceiling_plateau (NewBackoff 0 100 (3/2)) 3 (by norm_num [NewBackoff])

/-! ## Association-list and cache lemmas -/

/-- Looking up a key after filtering away every pair with that key yields
nothing. -/
theorem lookup_filter_ne {β : Type} (ls : List (String × β)) (k : String) :
    List.lookup k (ls.filter fun p => p.1 != k) = none := by
  induction ls with
  | nil => rfl
  | cons a t ih =>
    by_cases h : a.1 = k
    · simp [List.filter_cons, h, ih]
    · obtain ⟨a1, a2⟩ := a
      simp only at h
      have hb : (k == a1) = false := beq_false_of_ne (Ne.symm h)
      simp [List.filter_cons, h, List.lookup, ih, hb]

/-- The `Context.Set` makes the entry retrievable. -/
theorem context_get_set (c : Context) (k : String) (v : Service) :
    Context.get (Context.set c k v) k = some v := by
  unfold Context.get Context.set
  simp [List.lookup]

/-- The `Context.Remove` leaves no entry behind. -/
theorem context_get_remove (c : Context) (k : String) :
    Context.get (Context.remove c k) k = none :=
  lookup_filter_ne c k

/-! ## `retry` / `delete` characterization -/

/-- The sentinel contains itself. -/
theorem strContains_self_tryAgain : strContains TRY_AGAIN TRY_AGAIN = true := by
  decide

/-- A failing backend delete: one traced call, the sentinel error. -/
theorem deleteOp_err (env : Env) (svc : Service) (w : World) (s : String)
    (h : env.deleteErr = some s) :
    deleteOp env svc w =
      ({ w with trace := w.trace ++ [ExtCall.deleteLB svc] }, some TRY_AGAIN) := by
  unfold deleteOp
  rw [h]

/-- A succeeding backend delete: one traced call, cloud cleared, cache entry
removed. -/
theorem deleteOp_ok (env : Env) (svc : Service) (w : World)
    (h : env.deleteErr = none) :
    deleteOp env svc w =
      ({ w with
          trace := w.trace ++ [ExtCall.deleteLB svc]
          cloud := { lb := none }
          cache := Context.remove w.cache (key svc) }, none) := by
  unfold deleteOp
  rw [h]

/-- When the backend delete succeeds, the retried delete performs exactly one
delete call, clears the cloud state, removes the cache entry, and returns
nil. -/
theorem retryGo_delete_ok (env : Env) (svc : Service) (w : World) (n : Nat)
    (h : env.deleteErr = none) :
    retryGo (n + 1) (deleteOp env svc) w =
      ({ w with
          trace := w.trace ++ [ExtCall.deleteLB svc]
          cloud := { lb := none }
          cache := Context.remove w.cache (key svc) }, none) := by
  unfold retryGo
  rw [deleteOp_ok env svc w h]

/-- When the backend delete keeps failing, all `n` retry attempts issue a
delete call, nothing else in the world changes, and the retry exhausts into
`ErrWaitTimeout`. -/
theorem retryGo_delete_err (env : Env) (svc : Service) (s : String)
    (h : env.deleteErr = some s) :
    ∀ (n : Nat) (w : World),
      retryGo n (deleteOp env svc) w =
        ({ w with trace := w.trace ++ List.replicate n (ExtCall.deleteLB svc) },
          some ErrWaitTimeout) := by
  intro n
  induction n with
  | zero =>
    intro w
    rw [show retryGo 0 (deleteOp env svc) w = (w, some ErrWaitTimeout) from rfl]
    simp
  | succ m ih =>
    intro w
    unfold retryGo
    rw [deleteOp_err env svc w s h]
    simp only [strContains_self_tryAgain, if_true]
    cases m with
    | zero => simp
    | succ l =>
      rw [if_neg (by omega)]
      rw [ih]
      simp [List.replicate_succ, List.append_assoc]

/-! ## C2 — error propagation through the generic retry helper -/

/-- Number of status writes distributes over trace concatenation. -/
theorem countStatusWrites_append (a b : List ExtCall) :
    countStatusWrites (a ++ b) = countStatusWrites a + countStatusWrites b := by
  unfold countStatusWrites
  simp [List.filter_append]

/-- Number of cloud writes distributes over trace concatenation. -/
theorem countCloudWrites_append (a b : List ExtCall) :
    countCloudWrites (a ++ b) = countCloudWrites a + countCloudWrites b := by
  unfold countCloudWrites
  simp [List.filter_append]

/-- A substring of the right part is a substring of the concatenation. -/
theorem listContainsSub_append_right (l1 l2 sub : List Char)
    (h : listContainsSub l2 sub = true) :
    listContainsSub (l1 ++ l2) sub = true := by
  induction l1 with
  | nil => simpa using h
  | cons a t ih =>
    show (listStartsWith (a :: (t ++ l2)) sub || listContainsSub (t ++ l2) sub) = true
    rw [ih]
    simp

/-- A substring of the right part is a substring of the appended string. -/
theorem strContains_append_right (a b sub : String)
    (h : strContains b sub = true) : strContains (a ++ b) sub = true := by
  unfold strContains at h ⊢
  rw [show (a ++ b).toList = a.toList ++ b.toList from by
    simp [String.toList, String.data_append]]
  exact listContainsSub_append_right a.toList b.toList sub.toList h

/-- The wrapped conflict message always carries the sentinel when the
server's own conflict text does. -/
theorem conflictMsg_contains_tryAgain (svc : Service) (m : String)
    (h : strContains m TRY_AGAIN = true) :
    strContains (conflictMsg svc m) TRY_AGAIN = true :=
  strContains_append_right _ m TRY_AGAIN h

/-- C2 counterexample. The claim asserts every non-nil error other than a
`try again` one "is propagated to the caller of retry"; for this concrete
function — whose single attempt returns the non-nil, sentinel-free error
`boom` — the retry helper returns nil and the unchanged world: the error is
dropped, not propagated. -/
theorem c2_counterexample :
    strContains "boom" TRY_AGAIN = false ∧
    retryGo 8 (fun w => (w, some "boom")) (mkWorld svcPolicyCluster)
      = (mkWorld svcPolicyCluster, none) := by
  constructor
  · decide
  · rfl

/-- The status-write closure when the API server answers a conflict: the
object is re-fetched, the write is attempted and refused, and the closure
returns the wrapped conflict message; the live object is untouched. -/
theorem statusCl_conflict (env : Env) (newm : LoadBalancerStatus)
    (svc u : Service) (w : World) (m : String) (hk : w.kube = some u)
    (hcf : env.statusWrite (countStatusWrites w.trace) = WriteOutcome.conflict m) :
    statusCl env newm svc w
      = ({ w with trace := (w.trace ++ [ExtCall.getSvc]) ++ [ExtCall.statusWrite newm] },
          some (conflictMsg svc m)) := by
  have h1 : statusCl env newm svc w
      = statusClKube env newm svc { w with trace := w.trace ++ [ExtCall.getSvc] }
          w.kube := rfl
  have h2 : statusCl env newm svc w
      = statusClWrite newm svc u { w with trace := w.trace ++ [ExtCall.getSvc] }
          (env.statusWrite (countStatusWrites (w.trace ++ [ExtCall.getSvc]))) := by
    rw [h1, hk]
    rfl
  have hcount : countStatusWrites (w.trace ++ [ExtCall.getSvc])
      = countStatusWrites w.trace := by
    rw [countStatusWrites_append]
    rfl
  rw [hcount, hcf] at h2
  rw [h2]
  rfl

/-- Exhausting `retryGo` on a step that always fails retryably under an
invariant: every attempt happens (one status write each), and the loop ends
in `ErrWaitTimeout`. -/
theorem retryGo_exhaust (f : World → World × Option String) (P : World → Prop)
    (hstep : ∀ w, P w →
      (∃ m2, (f w).2 = some m2 ∧ strContains m2 TRY_AGAIN = true) ∧
      P (f w).1 ∧
      countStatusWrites (f w).1.trace = countStatusWrites w.trace + 1) :
    ∀ (n : Nat) (w : World), P w →
      (retryGo n f w).2 = some ErrWaitTimeout ∧
      countStatusWrites (retryGo n f w).1.trace = countStatusWrites w.trace + n := by
  intro n
  induction n with
  | zero =>
    intro w _
    exact ⟨rfl, rfl⟩
  | succ k ih =>
    intro w hP
    obtain ⟨⟨m2, hm2, hc2⟩, hP1, hcount⟩ := hstep w hP
    unfold retryGo
    rcases hp : f w with ⟨w1, e⟩
    rw [hp] at hm2 hP1 hcount
    simp only at hm2 hP1 hcount
    subst hm2
    show ((if strContains m2 TRY_AGAIN = true then
        (if k = 0 then (w1, some ErrWaitTimeout) else retryGo k f w1)
        else (w1, none)) : World × Option String).2 = some ErrWaitTimeout ∧
      countStatusWrites ((if strContains m2 TRY_AGAIN = true then
        (if k = 0 then (w1, some ErrWaitTimeout) else retryGo k f w1)
        else (w1, none)) : World × Option String).1.trace
        = countStatusWrites w.trace + (k + 1)
    rw [if_pos hc2]
    cases k with
    | zero =>
      rw [if_pos rfl]
      exact ⟨rfl, by rw [hcount]⟩
    | succ l =>
      rw [if_neg (by omega)]
      obtain ⟨hsnd, hcnt⟩ := ih w1 hP1
      refine ⟨hsnd, ?_⟩
      rw [hcnt, hcount]
      omega

/-- C2 (amended): the retry helper distinguishes errors whose text contains
`try again` — retried up to the step budget, exhaustion surfacing the
non-nil wait-timeout error — from all other errors; any other non-nil error
ends the retry after that single attempt but is swallowed: `retry` returns
nil instead of propagating it. An optimistic-concurrency conflict during a
status write does make `updateStatus` return a non-nil error, but not by
aborting: the API server's conflict text itself ends in `try again`, so the
conflicting write is blindly retried through all three attempts and the
returned error is the retry-exhaustion timeout. -/
theorem c2_amended_swallow_and_conflict_timeout :
    (∀ (steps : Nat) (f : World → World × Option String) (w : World) (m : String),
      (f w).2 = some m → strContains m TRY_AGAIN = false →
      retryGo (steps + 1) f w = ((f w).1, none)) ∧
    (∀ (env : Env) (svc u : Service) (pre newm : LoadBalancerStatus) (w : World)
      (m : String),
      pre ≠ newm → w.kube = some u →
      (∀ n, env.statusWrite n = WriteOutcome.conflict m) →
      strContains m TRY_AGAIN = true →
      (updateStatus env svc pre (some newm) w).2 = some ErrWaitTimeout ∧
      countStatusWrites (updateStatus env svc pre (some newm) w).1.trace
        = countStatusWrites w.trace + 3) := by
  constructor
  · intro steps f w m h1 h2
    unfold retryGo
    rcases hp : f w with ⟨w1, e⟩
    rw [hp] at h1
    cases e with
    | none => simp at h1
    | some m2 =>
      have hm : m2 = m := by simpa using h1
      subst hm
      simp [h2]
  · intro env svc u pre newm w m hne hk hcf hm
    have hupd : updateStatus env svc pre (some newm) w
        = retryGo 3 (statusCl env newm svc) w := by
      simp [updateStatus, hne]
    rw [hupd]
    refine retryGo_exhaust (statusCl env newm svc) (fun w' => w'.kube = some u)
      ?_ 3 w hk
    intro w' hk'
    rw [statusCl_conflict env newm svc u w' m hk' (hcf _)]
    refine ⟨⟨conflictMsg svc m, rfl, conflictMsg_contains_tryAgain svc m hm⟩, ?_, ?_⟩
    · exact hk'
    · show countStatusWrites
          ((w'.trace ++ [ExtCall.getSvc]) ++ [ExtCall.statusWrite newm])
        = countStatusWrites w'.trace + 1
      rw [countStatusWrites_append, countStatusWrites_append]
      rfl

/-- C2 amended witness: a generic sentinel-free error is dropped with a nil
result, and a status write conflicting with the server's standard conflict
message exhausts three attempts into the wait-timeout error. -/
theorem c2_amended_witness :
    retryGo (7 + 1) (fun w => (w, some "nope")) (mkWorld svcPolicyLocal)
      = (((fun (w : World) => (w, some "nope")) (mkWorld svcPolicyLocal)).1, none) ∧
    ((updateStatus envConflict svcPolicyCluster { ingress := [] }
        (some { ingress := ["198.51.100.7"] }) (mkWorld svcPolicyCluster)).2
      = some ErrWaitTimeout ∧
    countStatusWrites (updateStatus envConflict svcPolicyCluster { ingress := [] }
        (some { ingress := ["198.51.100.7"] }) (mkWorld svcPolicyCluster)).1.trace
      = countStatusWrites (mkWorld svcPolicyCluster).trace + 3) := by
  constructor
  · exact c2_amended_swallow_and_conflict_timeout.1 7 (fun w => (w, some "nope"))
      (mkWorld svcPolicyLocal) "nope" rfl (by decide)
  · exact c2_amended_swallow_and_conflict_timeout.2 envConflict svcPolicyCluster
      svcPolicyCluster { ingress := [] } { ingress := ["198.51.100.7"] }
      (mkWorld svcPolicyCluster) (apiConflictText "web")
      (by decide) rfl (fun _ => rfl) (by decide)

/-! ## C7 — deletion event with no cached prior state is a no-op -/

/-- C7: when the lister reports the service gone and the ServiceCache holds
no entry for the key, `ServiceSyncTask` returns nil and leaves the world —
in particular the call trace, hence the cloud backend — untouched. -/
theorem c7_notfound_no_cache_noop (env : Env) (w : World) (k : String)
    (p : String × String)
    (hk : splitMetaNamespaceKey k = some p)
    (hc : Context.get w.cache k = none) :
    ServiceSyncTask env ListerResult.notFound k w = (w, none) := by
  unfold ServiceSyncTask
  rw [hk]
  simp [syncDispatch, syncDelete, hc]

/-- C7 witness: a well-formed key over an empty cache. -/
theorem c7_witness :
    ServiceSyncTask envOk ListerResult.notFound "default/web" (mkWorld svcPolicyCluster)
      = (mkWorld svcPolicyCluster, none) :=
  c7_notfound_no_cache_noop envOk (mkWorld svcPolicyCluster) "default/web"
    ("default", "web") rfl rfl

/-! ## C3 — cache state after a successful run on a service not needing an LB -/

/-- A successful `bindErr` means the first step succeeded and the result is
the continuation applied to its world. -/
theorem bindErr_success_snd {r : World × Option String}
    {f : World → World × Option String}
    (h : (bindErr r f).2 = none) :
    ∃ w', r = (w', none) ∧ bindErr r f = f w' := by
  obtain ⟨w', e⟩ := r
  cases e with
  | none => exact ⟨w', rfl, rfl⟩
  | some m => simp [bindErr] at h

/-- The `finishStatus` on success records the reconciled object in the cache. -/
theorem finishStatus_success_cache (env : Env) (svc : Service)
    (pre newm : LoadBalancerStatus) (w : World)
    (h : (finishStatus env svc pre newm w).2 = none) :
    Context.get (finishStatus env svc pre newm w).1.cache (key svc) = some svc := by
  have hfs : finishStatus env svc pre newm w
      = recordCache svc (updateStatus env svc pre (some newm) w) := rfl
  rw [hfs] at h ⊢
  generalize updateStatus env svc pre (some newm) w = r at h ⊢
  obtain ⟨w1, e⟩ := r
  cases e with
  | none =>
    simp only [recordCache]
    exact context_get_set w1.cache (key svc) svc
  | some msg => simp [recordCache] at h

/-- C3 counterexample. The claim states a successful `update` run on a
service that no longer requires a load balancer leaves the cache with no
entry for its key; on this world the run succeeds and the cache afterwards
*does* hold the object under its key — the transient removal is overwritten
by the unconditional cache set at the end of `update`. -/
theorem c3_counterexample :
    (update envOk none svcNoLB (mkWorld svcNoLB)).2 = none ∧
    Context.get (update envOk none svcNoLB (mkWorld svcNoLB)).1.cache (key svcNoLB)
      = some svcNoLB := by
  constructor <;> rfl

/-- The tail of the no-load-balancer branch of `update`: on success the
reconciled object sits in the cache. -/
theorem c3_nolb_tail (env : Env) (svc : Service) (w2 : World)
    (h : (bindErr (removeServiceHash svc w2)
        (fun w3 => finishStatus env svc svc.status { ingress := [] } w3)).2 = none) :
    Context.get (bindErr (removeServiceHash svc w2)
        (fun w3 => finishStatus env svc svc.status { ingress := [] } w3)).1.cache
      (key svc) = some svc := by
  obtain ⟨w3, _, hb⟩ := bindErr_success_snd h
  rw [hb] at h ⊢
  exact finishStatus_success_cache env svc svc.status { ingress := [] } w3 h

/-- The `retryGo 8` of a succeeding delete, as used by `update`. -/
theorem retryGo8_delete_ok (env : Env) (svc : Service) (w : World)
    (h : env.deleteErr = none) :
    retryGo 8 (deleteOp env svc) w =
      ({ w with
          trace := w.trace ++ [ExtCall.deleteLB svc]
          cloud := { lb := none }
          cache := Context.remove w.cache (key svc) }, none) :=
  retryGo_delete_ok env svc w 7 h

/-- C3 (amended): unless the run took the UID-mismatch early-delete path, a
successful `update` run on a service that no longer requires a load balancer
leaves the ServiceCache holding that service under its key — the final
unconditional cache set re-adds the entry removed inside the branch, so a
present cache entry does not imply a load balancer is believed to exist. -/
theorem c3_amended_cache_repopulated (env : Env) (w : World)
    (cached : Option Service) (svc : Service)
    (hlb : NeedLoadBalancer svc = false)
    (huid : uidChanged cached svc = false)
    (hsucc : (update env cached svc w).2 = none) :
    Context.get (update env cached svc w).1.cache (key svc) = some svc := by
  unfold update at hsucc ⊢
  rw [huid] at hsucc ⊢
  simp only [Bool.false_eq_true, if_false] at hsucc ⊢
  rw [if_pos hlb] at hsucc ⊢
  cases hex : w.cloud.exists_ with
  | false =>
    simp only [hex, Bool.false_eq_true, if_false, bindErr] at hsucc ⊢
    exact c3_nolb_tail env svc _ hsucc
  | true =>
    simp only [hex, eq_self_iff_true, if_true] at hsucc ⊢
    rcases hde : env.deleteErr with _ | s
    · rw [retryGo8_delete_ok env svc _ hde] at hsucc ⊢
      simp only [bindErr] at hsucc ⊢
      exact c3_nolb_tail env svc _ hsucc
    · rw [retryGo_delete_err env svc s hde] at hsucc
      simp [bindErr] at hsucc

/-- C3 amended witness: the ClusterIP service on a fresh world. -/
theorem c3_amended_witness :
    Context.get (update envOk none svcNoLB (mkWorld svcNoLB)).1.cache (key svcNoLB)
      = some svcNoLB :=
  c3_amended_cache_repopulated envOk (mkWorld svcNoLB) none svcNoLB rfl rfl rfl

/-! ## C8 — UID mismatch triggers delete, not in-place update -/

/-- C8 counterexample. The claim states that on a UID mismatch `update`
deletes and "then proceeds as a fresh ensure"; on this world (cached UID
`uid-1`, live UID `uid-2`, delete succeeding) the whole operation's trace is
exactly one delete of the new object — no ensure call occurs in the run. -/
theorem c8_counterexample :
    (update envOk (some svcPolicyCluster) svcRecreated wRecreated).2 = none ∧
    (update envOk (some svcPolicyCluster) svcRecreated wRecreated).1.trace
      = [ExtCall.deleteLB svcRecreated] := by
  constructor <;> rfl

/-! ### Trace extension lemmas -/

/-- Every `UpdateStatus` attempt only appends to the trace. -/
theorem statusClWrite_trace (newm : LoadBalancerStatus) (svc cur : Service)
    (w1 : World) (o : WriteOutcome) :
    ∃ t, (statusClWrite newm svc cur w1 o).1.trace = w1.trace ++ t := by
  cases o <;> exact ⟨[ExtCall.statusWrite newm], rfl⟩

/-- The object re-fetch plus write only appends to the trace. -/
theorem statusClKube_trace (env : Env) (newm : LoadBalancerStatus) (svc : Service)
    (w1 : World) (ko : Option Service) :
    ∃ t, (statusClKube env newm svc w1 ko).1.trace = w1.trace ++ t := by
  cases ko with
  | none => exact ⟨[], by simp [statusClKube]⟩
  | some cur =>
    exact statusClWrite_trace newm svc cur w1
      (env.statusWrite (countStatusWrites w1.trace))

/-- The status-write closure only appends to the trace. -/
theorem statusCl_trace (env : Env) (newm : LoadBalancerStatus) (svc : Service)
    (w : World) :
    ∃ t, (statusCl env newm svc w).1.trace = w.trace ++ t := by
  have h1 : statusCl env newm svc w
      = statusClKube env newm svc { w with trace := w.trace ++ [ExtCall.getSvc] }
          w.kube := rfl
  rw [h1]
  obtain ⟨t, ht⟩ := statusClKube_trace env newm svc
    { w with trace := w.trace ++ [ExtCall.getSvc] } w.kube
  refine ⟨[ExtCall.getSvc] ++ t, ?_⟩
  rw [ht]
  simp

/-- The `retryGo` only appends to the trace when its step does. -/
theorem retryGo_trace (f : World → World × Option String)
    (hf : ∀ w, ∃ t, (f w).1.trace = w.trace ++ t) :
    ∀ (steps : Nat) (w : World),
      ∃ t, (retryGo steps f w).1.trace = w.trace ++ t := by
  intro steps
  induction steps with
  | zero =>
    intro w
    rw [show retryGo 0 f w = (w, some ErrWaitTimeout) from rfl]
    exact ⟨[], by simp⟩
  | succ n ih =>
    intro w
    unfold retryGo
    obtain ⟨t1, ht1⟩ := hf w
    rcases hp : f w with ⟨w1, e⟩
    rw [hp] at ht1
    simp only at ht1
    cases e with
    | none => exact ⟨t1, ht1⟩
    | some msg =>
      show ∃ t, ((if strContains msg TRY_AGAIN = true then
          (if n = 0 then (w1, some ErrWaitTimeout) else retryGo n f w1)
          else (w1, none)) : World × Option String).1.trace = w.trace ++ t
      by_cases hc : strContains msg TRY_AGAIN = true
      · rw [if_pos hc]
        cases n with
        | zero => exact ⟨t1, by simpa using ht1⟩
        | succ m =>
          rw [if_neg (by omega)]
          obtain ⟨t2, ht2⟩ := ih w1
          exact ⟨t1 ++ t2, by rw [ht2, ht1, List.append_assoc]⟩
      · rw [if_neg hc]
        exact ⟨t1, ht1⟩

/-- The `updateStatus` only appends to the trace. -/
theorem updateStatus_trace (env : Env) (svc : Service) (pre : LoadBalancerStatus)
    (newm : Option LoadBalancerStatus) (w : World) :
    ∃ t, (updateStatus env svc pre newm w).1.trace = w.trace ++ t := by
  cases newm with
  | none => exact ⟨[], by simp [updateStatus]⟩
  | some st =>
    by_cases h : pre = st
    · exact ⟨[], by simp [updateStatus, h]⟩
    · have he : updateStatus env svc pre (some st) w
          = retryGo 3 (statusCl env st svc) w := by
        simp [updateStatus, h]
      rw [he]
      exact retryGo_trace (statusCl env st svc) (statusCl_trace env st svc) 3 w

/-- The `finishStatus` only appends to the trace. -/
theorem finishStatus_trace (env : Env) (svc : Service)
    (pre newm : LoadBalancerStatus) (w : World) :
    ∃ t, (finishStatus env svc pre newm w).1.trace = w.trace ++ t := by
  have hfs : finishStatus env svc pre newm w
      = recordCache svc (updateStatus env svc pre (some newm) w) := rfl
  rw [hfs]
  obtain ⟨t, ht⟩ := updateStatus_trace env svc pre (some newm) w
  generalize updateStatus env svc pre (some newm) w = r at ht ⊢
  obtain ⟨w1, e⟩ := r
  simp only at ht
  cases e with
  | none => exact ⟨t, by simp only [recordCache]; exact ht⟩
  | some msg => exact ⟨t, by simp only [recordCache]; exact ht⟩

/-- The `addServiceHash` only appends to the trace. -/
theorem addServiceHash_trace (svc : Service) (w : World) :
    ∃ t, (addServiceHash svc w).1.trace = w.trace ++ t := by
  have h1 : addServiceHash svc w
      = addHashKube svc { w with trace := w.trace ++ [ExtCall.patchSvc] } w.kube := rfl
  rw [h1]
  cases w.kube with
  | none => exact ⟨[ExtCall.patchSvc], rfl⟩
  | some cur => exact ⟨[ExtCall.patchSvc], rfl⟩

/-- The `bindErr` only appends to the trace when both steps do. -/
theorem bindErr_trace (r : World × Option String) (f : World → World × Option String)
    (w0 : World) (hr : ∃ t, r.1.trace = w0.trace ++ t)
    (hf : ∀ w, ∃ t, (f w).1.trace = w.trace ++ t) :
    ∃ t, (bindErr r f).1.trace = w0.trace ++ t := by
  obtain ⟨w1, e⟩ := r
  obtain ⟨t1, ht1⟩ := hr
  simp only at ht1
  cases e with
  | some m => exact ⟨t1, by simp only [bindErr]; exact ht1⟩
  | none =>
    obtain ⟨t2, ht2⟩ := hf w1
    exact ⟨t1 ++ t2, by simp only [bindErr]; rw [ht2, ht1, List.append_assoc]⟩

/-- C8 (amended): on a UID mismatch `update` only ever invokes the cloud
delete, and always for the new object; it never performs an in-place
ensure/update in that run; on success the cache entry for the key is
cleared, which is what makes a later reconciliation of the key (no cached
entry) proceed as a fresh ensure — and such a fresh run does reach the
ensure call. -/
theorem c8_amended_delete_then_fresh_ensure :
    (∀ (env : Env) (w : World) (c svc : Service), c.uid ≠ svc.uid →
      (∃ l, (update env (some c) svc w).1.trace = w.trace ++ l ∧
        ∀ x ∈ l, x = ExtCall.deleteLB svc) ∧
      ((update env (some c) svc w).2 = none →
        Context.get (update env (some c) svc w).1.cache (key svc) = none)) ∧
    (∀ (env : Env) (w : World) (svc : Service), NeedLoadBalancer svc = true →
      ∃ nodes wrote, ExtCall.ensureLB svc nodes wrote ∈ (update env none svc w).1.trace) := by
  constructor
  · intro env w c svc huid
    have huid' : uidChanged (some c) svc = true := by
      simp [uidChanged, bne_iff_ne, huid]
    have hupd : update env (some c) svc w = retryGo 8 (deleteOp env svc) w := by
      unfold update
      rw [if_pos huid']
    rw [hupd]
    rcases hde : env.deleteErr with _ | s
    · rw [retryGo8_delete_ok env svc w hde]
      refine ⟨⟨[ExtCall.deleteLB svc], rfl, ?_⟩, ?_⟩
      · intro x hx
        simpa using hx
      · intro _
        exact context_get_remove w.cache (key svc)
    · rw [retryGo_delete_err env svc s hde]
      refine ⟨⟨List.replicate 8 (ExtCall.deleteLB svc), rfl, ?_⟩, ?_⟩
      · intro x hx
        exact List.eq_of_mem_replicate hx
      · intro habs
        simp at habs
  · intro env w svc hlb
    have h0 : update env none svc w
        = bindErr (addServiceHash svc
            { w with
                cloud := (Cloud.ensure w.cloud svc).1
                trace := w.trace ++ [ExtCall.ensureLB svc (AvailableNodes env svc)
                  (Cloud.ensure w.cloud svc).2.2] })
            (fun w2 => finishStatus env svc svc.status (Cloud.ensure w.cloud svc).2.1 w2) := by
      unfold update
      rw [if_neg (by simp [uidChanged])]
      rw [if_neg (by simp [hlb])]
    rw [h0]
    obtain ⟨t, ht⟩ := bindErr_trace
      (addServiceHash svc
        { w with
            cloud := (Cloud.ensure w.cloud svc).1
            trace := w.trace ++ [ExtCall.ensureLB svc (AvailableNodes env svc)
              (Cloud.ensure w.cloud svc).2.2] })
      (fun w2 => finishStatus env svc svc.status (Cloud.ensure w.cloud svc).2.1 w2)
      { w with
          cloud := (Cloud.ensure w.cloud svc).1
          trace := w.trace ++ [ExtCall.ensureLB svc (AvailableNodes env svc)
            (Cloud.ensure w.cloud svc).2.2] }
      (addServiceHash_trace svc _)
      (fun w2 => finishStatus_trace env svc svc.status (Cloud.ensure w.cloud svc).2.1 w2)
    refine ⟨AvailableNodes env svc, (Cloud.ensure w.cloud svc).2.2, ?_⟩
    rw [ht]
    simp

/-! ### Characterization lemmas for the happy paths (used for C4) -/

/-- The `GetServiceHash` depends only on the spec. -/
theorem hash_congr (s1 s2 : Service) (h : s1.spec = s2.spec) :
    GetServiceHash s1 = GetServiceHash s2 := by
  unfold GetServiceHash
  rw [h]

/-- The `NeedLoadBalancer` depends only on the spec. -/
theorem needLB_congr (s1 s2 : Service) (h : s1.spec = s2.spec) :
    NeedLoadBalancer s1 = NeedLoadBalancer s2 := by
  unfold NeedLoadBalancer
  rw [h]

/-- The `key` depends only on namespace and name. -/
theorem key_congr (s1 s2 : Service) (h1 : s1.ns = s2.ns) (h2 : s1.name = s2.name) :
    key s1 = key s2 := by
  unfold key
  rw [h1, h2]

/-- After an ensure, the backend records the reported status under the
service's current content hash. -/
theorem ensure_lb_state (c : Cloud) (svc : Service) :
    (Cloud.ensure c svc).1.lb = some ((Cloud.ensure c svc).2.1, GetServiceHash svc) := by
  unfold Cloud.ensure
  rcases hlb : c.lb with _ | ⟨st, h⟩
  · rfl
  · show (if h = GetServiceHash svc then (c, st, false)
        else ({ lb := some (ensuredStatus svc, GetServiceHash svc) },
          ensuredStatus svc, true)).1.lb
      = some ((if h = GetServiceHash svc then (c, st, false)
        else ({ lb := some (ensuredStatus svc, GetServiceHash svc) },
          ensuredStatus svc, true)).2.1, GetServiceHash svc)
    by_cases hh : h = GetServiceHash svc
    · rw [if_pos hh]
      show c.lb = some (st, GetServiceHash svc)
      rw [hlb, hh]
    · rw [if_neg hh]

/-- An ensure that hits the recorded hash performs no write and reports the
stored status. -/
theorem ensure_skip (c : Cloud) (svc : Service) (st : LoadBalancerStatus)
    (h : c.lb = some (st, GetServiceHash svc)) :
    Cloud.ensure c svc = (c, st, false) := by
  unfold Cloud.ensure
  rw [h]
  show (if GetServiceHash svc = GetServiceHash svc then (c, st, false)
      else ({ lb := some (ensuredStatus svc, GetServiceHash svc) },
        ensuredStatus svc, true))
    = (c, st, false)
  rw [if_pos rfl]

/-- The status-write closure under an all-ok environment with the object
present: one get, one successful write. -/
theorem statusCl_ok (env : Env) (newm : LoadBalancerStatus) (svc cur : Service)
    (w : World) (hok : allOk env) (hk : w.kube = some cur) :
    statusCl env newm svc w =
      ({ w with
          trace := (w.trace ++ [ExtCall.getSvc]) ++ [ExtCall.statusWrite newm]
          kube := some { cur with status := newm } }, none) := by
  have h1 : statusCl env newm svc w
      = statusClKube env newm svc { w with trace := w.trace ++ [ExtCall.getSvc] }
          w.kube := rfl
  rw [h1, hk]
  simp only [statusClKube]
  rw [hok]
  simp only [statusClWrite]

/-- The `updateStatus` under an all-ok environment when the status changed:
exactly one write, persisted. -/
theorem updateStatus_ok (env : Env) (svc : Service) (pre newm : LoadBalancerStatus)
    (w : World) (cur : Service) (hok : allOk env) (hk : w.kube = some cur)
    (hne : pre ≠ newm) :
    updateStatus env svc pre (some newm) w =
      ({ w with
          trace := (w.trace ++ [ExtCall.getSvc]) ++ [ExtCall.statusWrite newm]
          kube := some { cur with status := newm } }, none) := by
  have he : updateStatus env svc pre (some newm) w
      = retryGo 3 (statusCl env newm svc) w := by
    simp [updateStatus, hne]
  rw [he]
  unfold retryGo
  rw [statusCl_ok env newm svc cur w hok hk]

/-- The `finishStatus` when the status is unchanged: no write, cache set. -/
theorem finishStatus_skip (env : Env) (svc : Service)
    (pre newm : LoadBalancerStatus) (w : World) (hpre : pre = newm) :
    finishStatus env svc pre newm w
      = ({ w with cache := Context.set w.cache (key svc) svc }, none) := by
  unfold finishStatus
  have hu : updateStatus env svc pre (some newm) w = (w, none) := by
    simp [updateStatus, hpre]
  rw [hu]
  rfl

/-- The `finishStatus` under an all-ok environment when the status changed:
one successful write, then cache set. -/
theorem finishStatus_write (env : Env) (svc : Service)
    (pre newm : LoadBalancerStatus) (w : World) (cur : Service)
    (hok : allOk env) (hk : w.kube = some cur) (hne : pre ≠ newm) :
    finishStatus env svc pre newm w =
      ({ w with
          trace := (w.trace ++ [ExtCall.getSvc]) ++ [ExtCall.statusWrite newm]
          kube := some { cur with status := newm }
          cache := Context.set w.cache (key svc) svc }, none) := by
  unfold finishStatus
  rw [updateStatus_ok env svc pre newm w cur hok hk hne]
  rfl

/-- The `addServiceHash` with the object present: one patch stamping the label. -/
theorem addServiceHash_some (svc cur : Service) (w : World) (hk : w.kube = some cur) :
    addServiceHash svc w =
      ({ w with
          trace := w.trace ++ [ExtCall.patchSvc]
          kube := some
            { cur with labels := setLabel cur.labels LabelServiceHash (GetServiceHash svc) } },
        none) := by
  have h1 : addServiceHash svc w
      = addHashKube svc { w with trace := w.trace ++ [ExtCall.patchSvc] } w.kube := rfl
  rw [h1, hk]
  rfl

/-- The `removeServiceHash` when the reconciler's object has no hash label. -/
theorem removeServiceHash_none (svc : Service) (w : World)
    (hv : svc.labels.lookup LabelServiceHash = none) :
    removeServiceHash svc w = (w, none) := by
  unfold removeServiceHash
  rw [hv]
  rfl

/-- The `removeServiceHash` when the hash label is present and the object is
live: one patch stripping the label. -/
theorem removeServiceHash_some (svc cur : Service) (w : World) (v : String)
    (hv : svc.labels.lookup LabelServiceHash = some v) (hk : w.kube = some cur) :
    removeServiceHash svc w =
      ({ w with
          trace := w.trace ++ [ExtCall.patchSvc]
          kube := some
            { cur with labels := cur.labels.filter (fun p => p.1 != LabelServiceHash) } },
        none) := by
  have h1 : removeServiceHash svc w
      = removeHashKube { w with trace := w.trace ++ [ExtCall.patchSvc] } w.kube := by
    unfold removeServiceHash
    rw [hv]
    rfl
  rw [h1, hk]
  rfl

/-- A converged world reconciles cleanly: `update` returns nil and the run
adds no cloud write and no status write to the trace. -/
theorem converged_no_writes (env : Env) (w : World) (svc : Service)
    (hconv : Converged w svc) :
    (runUpdate env w).2 = none ∧
    countCloudWrites (runUpdate env w).1.trace = countCloudWrites w.trace ∧
    countStatusWrites (runUpdate env w).1.trace = countStatusWrites w.trace := by
  obtain ⟨hkube, hcu, hlbcase⟩ := hconv
  have hrw : runUpdate env w = update env (Context.get w.cache (key svc)) svc w := by
    unfold runUpdate
    rw [hkube]
  rw [hrw]
  have huid : uidChanged (Context.get w.cache (key svc)) svc = false := by
    rcases hc : Context.get w.cache (key svc) with _ | c
    · rfl
    · have hcu2 := hcu c hc
      simp [uidChanged, hcu2]
  cases hneed : NeedLoadBalancer svc with
  | true =>
    rw [hneed] at hlbcase
    simp only [eq_self_iff_true, if_true] at hlbcase
    obtain ⟨st, hlb, hst⟩ := hlbcase
    have hens := ensure_skip w.cloud svc st hlb
    have hupd : update env (Context.get w.cache (key svc)) svc w
        = bindErr (addServiceHash svc
            { w with
                trace := w.trace ++ [ExtCall.ensureLB svc (AvailableNodes env svc) false] })
          (fun w2 => finishStatus env svc svc.status st w2) := by
      unfold update
      rw [if_neg (by simp [huid])]
      rw [if_neg (by simp [hneed])]
      rw [hens]
    rw [hupd]
    rw [addServiceHash_some svc svc _ (by exact hkube)]
    simp only [bindErr]
    rw [finishStatus_skip env svc svc.status st _ hst]
    refine ⟨rfl, ?_, ?_⟩ <;>
      simp [countCloudWrites_append, countStatusWrites_append, countCloudWrites,
        countStatusWrites, ExtCall.isCloudWrite, ExtCall.isStatusWrite]
  | false =>
    rw [hneed] at hlbcase
    simp only [Bool.false_eq_true, if_false] at hlbcase
    obtain ⟨hlbnone, hlabel, hstat⟩ := hlbcase
    have hupd : update env (Context.get w.cache (key svc)) svc w
        = bindErr ({ w with
              trace := w.trace ++ [ExtCall.getLB]
              cache := Context.remove w.cache (key svc) }, none)
            (fun w2 => bindErr (removeServiceHash svc w2)
              (fun w3 => finishStatus env svc svc.status { ingress := [] } w3)) := by
      unfold update
      rw [if_neg (by simp [huid])]
      rw [if_pos hneed]
      dsimp only
      rw [if_neg (show ¬(w.cloud.exists_ = true) by simp [Cloud.exists_, hlbnone])]
    rw [hupd]
    simp only [bindErr]
    rw [removeServiceHash_none svc _ hlabel]
    simp only [bindErr]
    rw [finishStatus_skip env svc svc.status { ingress := [] } _ hstat]
    refine ⟨rfl, ?_, ?_⟩ <;>
      simp [countCloudWrites_append, countStatusWrites_append, countCloudWrites,
        countStatusWrites, ExtCall.isCloudWrite, ExtCall.isStatusWrite]

/-- Finishing the ensure path converges: the live object carries the ensured
status, the backend records it under the object's hash, and the cache entry
carries the object's UID. -/
theorem lb_finish_converged (env : Env) (svc0 svcH : Service) (w2 w1 : World)
    (newm : LoadBalancerStatus) (hok : allOk env)
    (hk2 : w2.kube = some svcH) (hcl : w2.cloud.lb = some (newm, GetServiceHash svc0))
    (hneed : NeedLoadBalancer svc0 = true)
    (hspec : svcH.spec = svc0.spec) (hstat : svcH.status = svc0.status)
    (huid : svcH.uid = svc0.uid) (hns : svcH.ns = svc0.ns) (hname : svcH.name = svc0.name)
    (hrun : finishStatus env svc0 svc0.status newm w2 = (w1, none)) :
    ∃ svc1, Converged w1 svc1 := by
  by_cases hpre : svc0.status = newm
  · rw [finishStatus_skip env svc0 _ _ _ hpre] at hrun
    have hw1 : w1 = { w2 with cache := Context.set w2.cache (key svc0) svc0 } := by
      have h := congrArg Prod.fst hrun
      simpa using h.symm
    refine ⟨svcH, ?_, ?_, ?_⟩
    · rw [hw1]
      exact hk2
    · intro c hc
      rw [hw1] at hc
      rw [show key svcH = key svc0 from key_congr svcH svc0 hns hname] at hc
      rw [context_get_set] at hc
      have hc' : c = svc0 := (Option.some.inj hc).symm
      rw [hc']
      exact huid.symm
    · rw [show NeedLoadBalancer svcH = NeedLoadBalancer svc0 from
        needLB_congr svcH svc0 hspec, hneed]
      simp only [eq_self_iff_true, if_true]
      refine ⟨newm, ?_, ?_⟩
      · rw [hw1]
        rw [show ({ w2 with cache := Context.set w2.cache (key svc0) svc0 } : World).cloud
          = w2.cloud from rfl]
        rw [hcl, hash_congr svcH svc0 hspec]
      · rw [hstat, hpre]
  · rw [finishStatus_write env svc0 svc0.status newm w2 svcH hok hk2 hpre] at hrun
    have hw1 : w1 = { w2 with
        trace := (w2.trace ++ [ExtCall.getSvc]) ++ [ExtCall.statusWrite newm]
        kube := some { svcH with status := newm }
        cache := Context.set w2.cache (key svc0) svc0 } := by
      have h := congrArg Prod.fst hrun
      simpa using h.symm
    refine ⟨{ svcH with status := newm }, ?_, ?_, ?_⟩
    · rw [hw1]
    · intro c hc
      rw [hw1] at hc
      rw [show key { svcH with status := newm } = key svc0 from
        key_congr _ svc0 hns hname] at hc
      rw [context_get_set] at hc
      have hc' : c = svc0 := (Option.some.inj hc).symm
      rw [hc']
      exact huid.symm
    · rw [show NeedLoadBalancer { svcH with status := newm } = NeedLoadBalancer svc0 from
        needLB_congr _ svc0 hspec, hneed]
      simp only [eq_self_iff_true, if_true]
      refine ⟨newm, ?_, rfl⟩
      rw [hw1]
      rw [show ({ w2 with
          trace := (w2.trace ++ [ExtCall.getSvc]) ++ [ExtCall.statusWrite newm]
          kube := some { svcH with status := newm }
          cache := Context.set w2.cache (key svc0) svc0 } : World).cloud
        = w2.cloud from rfl]
      rw [hcl, hash_congr { svcH with status := newm } svc0 hspec]

/-- Finishing the no-load-balancer path converges: empty status, no backend
load balancer, no hash label. -/
theorem nolb_finish_converged (env : Env) (svc0 svcR : Service) (wr w1 : World)
    (hok : allOk env) (hkr : wr.kube = some svcR) (hcl : wr.cloud.lb = none)
    (hneed : NeedLoadBalancer svc0 = false)
    (hspec : svcR.spec = svc0.spec) (hstat : svcR.status = svc0.status)
    (huid : svcR.uid = svc0.uid) (hns : svcR.ns = svc0.ns) (hname : svcR.name = svc0.name)
    (hlab : svcR.labels.lookup LabelServiceHash = none)
    (hrun : finishStatus env svc0 svc0.status { ingress := [] } wr = (w1, none)) :
    ∃ svc1, Converged w1 svc1 := by
  by_cases hpre : svc0.status = ({ ingress := [] } : LoadBalancerStatus)
  · rw [finishStatus_skip env svc0 _ _ _ hpre] at hrun
    have hw1 : w1 = { wr with cache := Context.set wr.cache (key svc0) svc0 } := by
      have h := congrArg Prod.fst hrun
      simpa using h.symm
    refine ⟨svcR, ?_, ?_, ?_⟩
    · rw [hw1]
      exact hkr
    · intro c hc
      rw [hw1] at hc
      rw [show key svcR = key svc0 from key_congr svcR svc0 hns hname] at hc
      rw [context_get_set] at hc
      have hc' : c = svc0 := (Option.some.inj hc).symm
      rw [hc']
      exact huid.symm
    · rw [show NeedLoadBalancer svcR = NeedLoadBalancer svc0 from
        needLB_congr svcR svc0 hspec, hneed]
      simp only [Bool.false_eq_true, if_false]
      refine ⟨?_, hlab, ?_⟩
      · rw [hw1]
        exact hcl
      · rw [hstat, hpre]
  · rw [finishStatus_write env svc0 svc0.status { ingress := [] } wr svcR hok hkr hpre]
      at hrun
    have hw1 : w1 = { wr with
        trace := (wr.trace ++ [ExtCall.getSvc])
          ++ [ExtCall.statusWrite { ingress := [] }]
        kube := some { svcR with status := { ingress := [] } }
        cache := Context.set wr.cache (key svc0) svc0 } := by
      have h := congrArg Prod.fst hrun
      simpa using h.symm
    refine ⟨{ svcR with status := { ingress := [] } }, ?_, ?_, ?_⟩
    · rw [hw1]
    · intro c hc
      rw [hw1] at hc
      rw [show key { svcR with status := ({ ingress := [] } : LoadBalancerStatus) }
        = key svc0 from key_congr _ svc0 hns hname] at hc
      rw [context_get_set] at hc
      have hc' : c = svc0 := (Option.some.inj hc).symm
      rw [hc']
      exact huid.symm
    · rw [show NeedLoadBalancer { svcR with status := ({ ingress := [] } : LoadBalancerStatus) }
        = NeedLoadBalancer svc0 from needLB_congr _ svc0 hspec, hneed]
      simp only [Bool.false_eq_true, if_false]
      exact ⟨by rw [hw1]; exact hcl, hlab, by trivial⟩

/-- The tail of the no-load-balancer path (hash strip, then status) leaves a
converged world when it succeeds. -/
theorem nolb_tail_converged (env : Env) (svc0 : Service) (wd w1 : World)
    (hok : allOk env) (hkd : wd.kube = some svc0) (hcl : wd.cloud.lb = none)
    (hneed : NeedLoadBalancer svc0 = false)
    (hrun : bindErr (removeServiceHash svc0 wd)
        (fun w3 => finishStatus env svc0 svc0.status { ingress := [] } w3) = (w1, none)) :
    ∃ svc1, Converged w1 svc1 := by
  rcases hv : svc0.labels.lookup LabelServiceHash with _ | v
  · rw [removeServiceHash_none svc0 wd hv] at hrun
    simp only [bindErr] at hrun
    exact nolb_finish_converged env svc0 svc0 wd w1 hok hkd hcl hneed
      rfl rfl rfl rfl rfl hv hrun
  · rw [removeServiceHash_some svc0 svc0 wd v hv hkd] at hrun
    simp only [bindErr] at hrun
    exact nolb_finish_converged env svc0
      { svc0 with labels := svc0.labels.filter (fun p => p.1 != LabelServiceHash) }
      { wd with
          trace := wd.trace ++ [ExtCall.patchSvc]
          kube := some
            { svc0 with labels := svc0.labels.filter (fun p => p.1 != LabelServiceHash) } }
      w1 hok rfl (by exact hcl) hneed rfl rfl rfl rfl rfl
      (lookup_filter_ne svc0.labels LabelServiceHash) hrun

/-- A fully successful run — nil error and the object recorded in the
cache — leaves a converged world. -/
theorem run1_converged (env : Env) (w w1 : World) (svc0 : Service)
    (hok : allOk env) (hkube : w.kube = some svc0)
    (hrun : runUpdate env w = (w1, none))
    (hcache : Context.get w1.cache (key svc0) = some svc0) :
    ∃ svc1, Converged w1 svc1 := by
  have hrun' : update env (Context.get w.cache (key svc0)) svc0 w = (w1, none) := by
    have h0 : runUpdate env w = update env (Context.get w.cache (key svc0)) svc0 w := by
      unfold runUpdate
      rw [hkube]
    rw [← h0]
    exact hrun
  cases huid : uidChanged (Context.get w.cache (key svc0)) svc0 with
  | true =>
    exfalso
    have hdel : update env (Context.get w.cache (key svc0)) svc0 w
        = retryGo 8 (deleteOp env svc0) w := by
      unfold update
      rw [if_pos huid]
    rw [hdel] at hrun'
    rcases hde : env.deleteErr with _ | s
    · rw [retryGo8_delete_ok env svc0 w hde] at hrun'
      have hw1 : w1 = { w with
          trace := w.trace ++ [ExtCall.deleteLB svc0]
          cloud := { lb := none }
          cache := Context.remove w.cache (key svc0) } := by
        have h := congrArg Prod.fst hrun'
        simpa using h.symm
      rw [hw1] at hcache
      rw [show ({ w with
          trace := w.trace ++ [ExtCall.deleteLB svc0]
          cloud := { lb := none }
          cache := Context.remove w.cache (key svc0) } : World).cache
        = Context.remove w.cache (key svc0) from rfl] at hcache
      rw [context_get_remove] at hcache
      exact Option.noConfusion hcache
    · rw [retryGo_delete_err env svc0 s hde] at hrun'
      have h := congrArg Prod.snd hrun'
      simp at h
  | false =>
    cases hneed : NeedLoadBalancer svc0 with
    | true =>
      have hupd : update env (Context.get w.cache (key svc0)) svc0 w
          = bindErr (addServiceHash svc0
              { w with
                  cloud := (Cloud.ensure w.cloud svc0).1
                  trace := w.trace ++ [ExtCall.ensureLB svc0 (AvailableNodes env svc0)
                    (Cloud.ensure w.cloud svc0).2.2] })
            (fun w2 => finishStatus env svc0 svc0.status (Cloud.ensure w.cloud svc0).2.1 w2) := by
        unfold update
        rw [if_neg (by simp [huid])]
        rw [if_neg (by simp [hneed])]
      rw [hupd] at hrun'
      rw [addServiceHash_some svc0 svc0 _ (by exact hkube)] at hrun'
      simp only [bindErr] at hrun'
      exact lb_finish_converged env svc0
        { svc0 with labels := setLabel svc0.labels LabelServiceHash (GetServiceHash svc0) }
        { w with
            cloud := (Cloud.ensure w.cloud svc0).1
            kube := some
              { svc0 with labels := setLabel svc0.labels LabelServiceHash (GetServiceHash svc0) }
            trace := (w.trace ++ [ExtCall.ensureLB svc0 (AvailableNodes env svc0)
              (Cloud.ensure w.cloud svc0).2.2]) ++ [ExtCall.patchSvc] }
        w1 (Cloud.ensure w.cloud svc0).2.1 hok rfl
        (by exact ensure_lb_state w.cloud svc0) hneed rfl rfl rfl rfl rfl hrun'
    | false =>
      rcases hlb0 : w.cloud.lb with _ | p
      · have hupd : update env (Context.get w.cache (key svc0)) svc0 w
            = bindErr ({ w with
                  trace := w.trace ++ [ExtCall.getLB]
                  cache := Context.remove w.cache (key svc0) }, none)
                (fun w2 => bindErr (removeServiceHash svc0 w2)
                  (fun w3 => finishStatus env svc0 svc0.status { ingress := [] } w3)) := by
          unfold update
          rw [if_neg (by simp [huid])]
          rw [if_pos hneed]
          dsimp only
          rw [if_neg (show ¬(w.cloud.exists_ = true) by simp [Cloud.exists_, hlb0])]
        rw [hupd] at hrun'
        simp only [bindErr] at hrun'
        exact nolb_tail_converged env svc0 _ w1 hok (by exact hkube) (by exact hlb0)
          hneed hrun'
      · have hex : w.cloud.exists_ = true := by simp [Cloud.exists_, hlb0]
        have hupd : update env (Context.get w.cache (key svc0)) svc0 w
            = bindErr (retryGo 8 (deleteOp env svc0)
                { w with trace := w.trace ++ [ExtCall.getLB] })
                (fun w2 => bindErr (removeServiceHash svc0 w2)
                  (fun w3 => finishStatus env svc0 svc0.status { ingress := [] } w3)) := by
          unfold update
          rw [if_neg (by simp [huid])]
          rw [if_pos hneed]
          dsimp only
          rw [if_pos hex]
        rw [hupd] at hrun'
        rcases hde : env.deleteErr with _ | s
        · rw [retryGo8_delete_ok env svc0 _ hde] at hrun'
          simp only [bindErr] at hrun'
          exact nolb_tail_converged env svc0 _ w1 hok (by exact hkube) (by exact rfl)
            hneed hrun'
        · rw [retryGo_delete_err env svc0 s hde] at hrun'
          exfalso
          simp [bindErr] at hrun'

/-- C4: under an environment whose status writes succeed, after a first
fully successful run of `update` (nil error, and the object recorded in the
ServiceCache — the code's own marker of complete processing), reconciling
the exact same unchanged live object a second time performs zero additional
external write calls: the second run adds no cloud-backend write and no
Kubernetes status write to the trace, and returns nil again. -/
theorem c4_second_run_no_writes (env : Env) (w w1 : World) (svc0 : Service)
    (hok : allOk env) (hkube : w.kube = some svc0)
    (hrun : runUpdate env w = (w1, none))
    (hcache : Context.get w1.cache (key svc0) = some svc0) :
    (runUpdate env w1).2 = none ∧
    countCloudWrites (runUpdate env w1).1.trace = countCloudWrites w1.trace ∧
    countStatusWrites (runUpdate env w1).1.trace = countStatusWrites w1.trace := by
  obtain ⟨svc1, hconv⟩ := run1_converged env w w1 svc0 hok hkube hrun hcache
  exact converged_no_writes env w1 svc1 hconv

/-- C4 witness: a fresh LoadBalancer service reconciled from an empty world;
the first run creates the load balancer and writes the status, the second
run is write-free. -/
theorem c4_witness :
    (runUpdate envOk ((runUpdate envOk (mkWorld svcPolicyCluster)).1)).2 = none ∧
    countCloudWrites
        (runUpdate envOk ((runUpdate envOk (mkWorld svcPolicyCluster)).1)).1.trace
      = countCloudWrites ((runUpdate envOk (mkWorld svcPolicyCluster)).1).trace ∧
    countStatusWrites
        (runUpdate envOk ((runUpdate envOk (mkWorld svcPolicyCluster)).1)).1.trace
      = countStatusWrites ((runUpdate envOk (mkWorld svcPolicyCluster)).1).trace :=
  c4_second_run_no_writes envOk (mkWorld svcPolicyCluster)
    ((runUpdate envOk (mkWorld svcPolicyCluster)).1) svcPolicyCluster
    (fun _ => rfl) rfl rfl rfl

/-- C8 amended witness: the recreated-UID world for the delete half, and a
fresh LoadBalancer service for the ensure half. -/
theorem c8_amended_witness :
    ((∃ l, (update envOk (some svcPolicyCluster) svcRecreated wRecreated).1.trace
        = wRecreated.trace ++ l ∧ ∀ x ∈ l, x = ExtCall.deleteLB svcRecreated) ∧
      ((update envOk (some svcPolicyCluster) svcRecreated wRecreated).2 = none →
        Context.get (update envOk (some svcPolicyCluster) svcRecreated wRecreated).1.cache
          (key svcRecreated) = none)) ∧
    (∃ nodes wrote, ExtCall.ensureLB svcPolicyLocal nodes wrote
      ∈ (update envOk none svcPolicyLocal (mkWorld svcPolicyLocal)).1.trace) :=
  ⟨c8_amended_delete_then_fresh_ensure.1 envOk wRecreated svcPolicyCluster svcRecreated
      (by decide),
    c8_amended_delete_then_fresh_ensure.2 envOk (mkWorld svcPolicyLocal) svcPolicyLocal
      (by decide)⟩

end AlibabaCC
